import Mathlib

/-!
Verification of the local-git-mcp-server repository (`src/git_server.py`).

The development shallowly embeds the repository-name validator, the
repository locator and the tool dispatcher of `GitServer`.  Filesystem and
git-engine effects are modelled explicitly: the repositories directory is a
finite association list from repository names to directory entries, and the
external git engine (mkdir, `Repo.init`, staging, committing, remotes,
pull/push/diff) is a parameter that may succeed or fail at each delegated
step, mirroring exactly where the Python code performs each effect.
-/

/-! ## Name validator (`_validate_repo_name`) -/

/-- `[a-zA-Z0-9]`, the character class of the first regex position. -/
def isAlnumAscii (c : Char) : Bool := c.isAlpha || c.isDigit

/-- `[a-zA-Z0-9-_.]`, the character class of the later regex positions. -/
def isNameChar (c : Char) : Bool := isAlnumAscii c || c == '-' || c == '_' || c == '.'

/-- Full match of `[a-zA-Z0-9][a-zA-Z0-9-_.]*` against a character list. -/
def coreMatch : List Char → Bool
  | [] => false
  | c :: cs => isAlnumAscii c && cs.all isNameChar

/-- Python `re.match(r'^[a-zA-Z0-9][a-zA-Z0-9-_.]*$', s)` viewed as a Bool:
it succeeds on a full match, and also when the string is a full match
followed by one final newline, because Python `$` matches just before a
trailing newline. -/
def re_match_name (s : String) : Bool :=
  coreMatch s.data || (s.data.getLast? == some '\n' && coreMatch s.data.dropLast)

/-- Bool substring occurrence: `p` occurs as a contiguous run of `l`. -/
def containsSubList (p : List Char) : List Char → Bool
  | [] => p == ([] : List Char)
  | c :: cs => p.isPrefixOf (c :: cs) || containsSubList p cs

/-- Python substring containment `p in s`. -/
def containsSub (p s : String) : Bool := containsSubList p.data s.data

/-- The `forbidden_patterns` list of the source; `"\\\\"` is the two-character
backslash-backslash string, exactly as the Python literal `'\\\\'`. -/
def forbidden_patterns : List String := ["..", "//", "\\\\", ".git", ".lock"]

/-- `any(pattern in repo_name for pattern in forbidden_patterns)`. -/
def forbidden_check (s : String) : Bool := forbidden_patterns.any (fun p => containsSub p s)

/-- Python `str.lower()` restricted to the ASCII mapping (all strings that
reach this check have already matched the ASCII-only regex). -/
def lowerStr (s : String) : String := String.mk (s.data.map Char.toLower)

/-- The `reserved_names` list of the source. -/
def reserved_names : List String :=
  ["git", "temp", "tmp", "aux", "con", "prn", "nul",
   "com1", "com2", "com3", "com4", "lpt1", "lpt2", "lpt3"]

/-- `repo_name.lower() in reserved_names`. -/
def reserved_check (s : String) : Bool := reserved_names.contains (lowerStr s)

/-- Split a character list at a separator (keeping empty pieces). -/
def splitOnChar (sep : Char) : List Char → List (List Char)
  | [] => [[]]
  | c :: cs =>
    let r := splitOnChar sep cs
    if c = sep then [] :: r
    else
      match r with
      | [] => [[c]]
      | h :: t => (c :: h) :: t

/-- `pathlib.Path(s).parts` for the membership questions the validator asks:
split on `/` and drop empty and `.` components. -/
def pathParts (s : String) : List (List Char) :=
  (splitOnChar '/' s.data).filter (fun p => p != ([] : List Char) && p != ['.'])

/-- `'..' in Path(repo_name).parts`. -/
def hasDotDotPart (s : String) : Bool := (pathParts s).any (fun p => p == ['.', '.'])

/-- Python `c in s` for a single character. -/
def hasChar (s : String) (c : Char) : Bool := s.data.any (fun x => x == c)

/-- The final check of `_validate_repo_name`:
`'..' in repo_path.parts or '/' in repo_name or '\\' in repo_name`. -/
def path_traversal_check (s : String) : Bool :=
  hasDotDotPart s || hasChar s '/' || hasChar s '\\'

/-- Error kinds of the validator, one per `raise` site of
`_validate_repo_name`; the spec's `InvalidName` covers the first three. -/
inductive ErrKind where
  | invalidNameEmpty
  | invalidNameTooLong
  | invalidNamePattern
  | forbiddenPattern
  | reservedName
  | pathTraversal
deriving DecidableEq

/-- The spec's `InvalidName` classification (empty, too long, or regex
mismatch). -/
def ErrKind.isInvalidName : ErrKind → Bool
  | .invalidNameEmpty => true
  | .invalidNameTooLong => true
  | .invalidNamePattern => true
  | _ => false

/-- `_validate_repo_name`, with the checks in the source's order. -/
def validate_repo_name (s : String) : Except ErrKind Unit :=
  if s.length = 0 then .error .invalidNameEmpty
  else if 255 < s.length then .error .invalidNameTooLong
  else if !re_match_name s then .error .invalidNamePattern
  else if forbidden_check s then .error .forbiddenPattern
  else if reserved_check s then .error .reservedName
  else if path_traversal_check s then .error .pathTraversal
  else .ok ()

/-! ## Filesystem and engine model -/

/-- One directory under the repositories root: whether it has a `.git`
marker, its files, the staging area, the commit messages in order, and the
configured remotes. -/
structure DirEntry where
  has_git : Bool
  files : List (String × String)
  staged : List String
  commits : List String
  remotes : List (String × String)
deriving DecidableEq

/-- The repositories directory: an association list from names to entries. -/
def FS := List (String × DirEntry)

instance : DecidableEq FS := fun a b => List.hasDecEq a b

def fsFind : FS → String → Option DirEntry
  | [], _ => none
  | (k, v) :: rest, nm => if k = nm then some v else fsFind rest nm

def fsInsert (fs : FS) (nm : String) (ent : DirEntry) : FS := (nm, ent) :: fs

def fsUpdate : FS → String → (DirEntry → DirEntry) → FS
  | [], _, _ => []
  | (k, v) :: rest, nm, f => if k = nm then (k, f v) :: rest else (k, v) :: fsUpdate rest nm f

/-- The effectful steps of `create_repository` at which the external
engine/filesystem may fail. -/
inductive CreateStep where
  | mkdirStep
  | gitInitStep
  | writeReadme
  | addReadme
  | commitReadme
  | addRemote
deriving DecidableEq

/-- The external git engine and filesystem-failure oracle: which creation
step fails, whether `index.add` accepts a file list, whether pull/push
succeed against a remote/branch, and the text produced by `git diff`. -/
structure Engine where
  failAt : CreateStep → Bool
  addOk : List String → Bool
  pullOk : String → String → Bool
  pushOk : String → String → Bool
  diff : String → String → Option String → String

/-- JSON values appearing in tool responses. -/
inductive JVal where
  | s (v : String)
  | b (v : Bool)
  | null
deriving DecidableEq

/-- A JSON-object tool response: ordered key/value pairs. -/
def Resp := List (String × JVal)

instance : DecidableEq Resp := fun a b => List.hasDecEq a b

def respFind : Resp → String → Option JVal
  | [], _ => none
  | (k, v) :: rest, key => if k = key then some v else respFind rest key

/-- Classified failures of `call_tool`, one per distinct failure path of the
source. -/
inductive CallErr where
  | invalidArguments
  | nameError (e : ErrKind)
  | alreadyExists
  | repositoryNotFound
  | missingArgument (arg : String)
  | noSuchRemote (remote : String)
  | engineFailure
  | unknownTool (tool : String)
deriving DecidableEq

def isUnknownToolErr : CallErr → Bool
  | .unknownTool _ => true
  | _ => false

def exceptOk : Except CallErr Resp → Bool
  | .ok _ => true
  | .error _ => false

/-- The argument bag of a tool invocation; `none` means the key is absent. -/
structure ToolArgs where
  name? : Option String
  init_commit? : Option Bool
  remote_url? : Option String
  repo_name? : Option String
  files? : Option (List String)
  message? : Option String
  remote? : Option String
  branch? : Option String
  commit1? : Option String
  commit2? : Option String

def argsEmpty : ToolArgs := ⟨none, none, none, none, none, none, none, none, none, none⟩

def argsName (nm : String) : ToolArgs :=
  ⟨some nm, none, none, none, none, none, none, none, none, none⟩

def argsRepo (rn : String) : ToolArgs :=
  ⟨none, none, none, some rn, none, none, none, none, none, none⟩

/-- `_check_repository_exists`: validate the name, then require the path to
exist and to contain a `.git` marker. -/
def check_repository_exists (fs : FS) (rn : String) : Except CallErr DirEntry :=
  match validate_repo_name rn with
  | .error e => .error (.nameError e)
  | .ok _ =>
    match fsFind fs rn with
    | none => .error .repositoryNotFound
    | some ent => if ent.has_git then .ok ent else .error .repositoryNotFound

/-- The name does not resolve to a live repository: the path is missing or
lacks the `.git` marker. -/
def repo_missing (fs : FS) (rn : String) : Bool :=
  match fsFind fs rn with
  | none => true
  | some ent => !ent.has_git

def pathJoin (base nm : String) : String := base ++ "/" ++ nm

/-- The content `f"# {repo_name}\n\nCreated on {datetime.now().isoformat()}"`
written to `README.md`; the timestamp is a parameter. -/
def readme_content (nm ts : String) : String := "# " ++ nm ++ "\n\nCreated on " ++ ts

/-- A stand-in for the engine-generated commit id `str(commit)`. -/
def commitHash (n : Nat) : String := "h" ++ toString n

/-- Python `", ".join(files)`. -/
def joinComma : List String → String
  | [] => ""
  | [x] => x
  | x :: xs => x ++ ", " ++ joinComma xs

/-- The success payload of `create_repository`. -/
def create_resp (base nm : String) (ic : Bool) (ru : Option String) : Resp :=
  [("status", .s "success"),
   ("message", .s ("Repository '" ++ nm ++ "' created successfully")),
   ("path", .s (pathJoin base nm)),
   ("has_initial_commit", .b ic),
   ("remote_url", match ru with | some u => .s u | none => .null)]

/-- The tail of `create_repository` after the optional initial commit: add
the optional remote, then return the success payload. `ent` is the state of
the new directory so far. -/
def create_finish (eng : Engine) (base : String) (fs : FS) (nm : String)
    (ent : DirEntry) (ic : Bool) (ru : Option String) : Except CallErr Resp × FS :=
  match ru with
  | none => (.ok (create_resp base nm ic none), fsInsert fs nm ent)
  | some u =>
    if eng.failAt .addRemote then (.error .engineFailure, fsInsert fs nm ent)
    else (.ok (create_resp base nm ic (some u)),
          fsInsert fs nm ⟨ent.has_git, ent.files, ent.staged, ent.commits,
                          ent.remotes ++ [("origin", u)]⟩)

/-- The `create_repository` branch of `call_tool`: validate, check
non-existence, `mkdir`, `Repo.init`, optionally write `README.md`, stage it
and commit `"Initial commit"`, optionally add the `origin` remote.  Each
intermediate state is the filesystem as it stands if the next step raises;
the source performs no cleanup on failure. -/
def create_repository (eng : Engine) (base ts : String) (fs : FS) (args : ToolArgs) :
    Except CallErr Resp × FS :=
  match args.name? with
  | none => (.error .invalidArguments, fs)
  | some nm =>
    match validate_repo_name nm with
    | .error e => (.error (.nameError e), fs)
    | .ok _ =>
      match fsFind fs nm with
      | some _ => (.error .alreadyExists, fs)
      | none =>
        let ic := args.init_commit?.getD true
        let ru := args.remote_url?
        if eng.failAt .mkdirStep then (.error .engineFailure, fs)
        else if eng.failAt .gitInitStep then
          (.error .engineFailure, fsInsert fs nm ⟨false, [], [], [], []⟩)
        else if ic then
          if eng.failAt .writeReadme then
            (.error .engineFailure, fsInsert fs nm ⟨true, [], [], [], []⟩)
          else if eng.failAt .addReadme then
            (.error .engineFailure,
             fsInsert fs nm ⟨true, [("README.md", readme_content nm ts)], [], [], []⟩)
          else if eng.failAt .commitReadme then
            (.error .engineFailure,
             fsInsert fs nm ⟨true, [("README.md", readme_content nm ts)], ["README.md"], [], []⟩)
          else
            create_finish eng base fs nm
              ⟨true, [("README.md", readme_content nm ts)], [], ["Initial commit"], []⟩ true ru
        else
          create_finish eng base fs nm ⟨true, [], [], [], []⟩ false ru

/-- The common block of `call_tool` once the repository resolved: dispatch on
the tool name. -/
def run_repo_tool (eng : Engine) (fs : FS) (tool rn : String) (ent : DirEntry)
    (args : ToolArgs) : Except CallErr Resp × FS :=
  if tool = "git_add" then
    match args.files? with
    | none => (.error (.missingArgument "files"), fs)
    | some files =>
      if eng.addOk files then
        (.ok [("status", .s "success"),
              ("message", .s ("Added files to staging area: " ++ joinComma files)),
              ("repo", .s rn)],
         fsUpdate fs rn (fun e => ⟨e.has_git, e.files, e.staged ++ files, e.commits, e.remotes⟩))
      else (.error .engineFailure, fs)
  else if tool = "git_commit" then
    match args.message? with
    | none => (.error (.missingArgument "message"), fs)
    | some msg =>
      (.ok [("status", .s "success"),
            ("message", .s "Commit created successfully"),
            ("commit_hash", .s (commitHash ent.commits.length)),
            ("commit_message", .s msg),
            ("repo", .s rn)],
       fsUpdate fs rn (fun e => ⟨e.has_git, e.files, [], e.commits ++ [msg], e.remotes⟩))
  else if tool = "git_pull" then
    let remote := args.remote?.getD "origin"
    let branch := args.branch?.getD "main"
    if ent.remotes.any (fun p => p.1 == remote) then
      if eng.pullOk remote branch then
        (.ok [("status", .s "success"),
              ("message", .s ("Pulled changes from " ++ remote ++ "/" ++ branch)),
              ("repo", .s rn)], fs)
      else (.error .engineFailure, fs)
    else (.error (.noSuchRemote remote), fs)
  else if tool = "git_push" then
    let remote := args.remote?.getD "origin"
    let branch := args.branch?.getD "main"
    if ent.remotes.any (fun p => p.1 == remote) then
      if eng.pushOk remote branch then
        (.ok [("status", .s "success"),
              ("message", .s ("Pushed changes to " ++ remote ++ "/" ++ branch)),
              ("repo", .s rn)], fs)
      else (.error .engineFailure, fs)
    else (.error (.noSuchRemote remote), fs)
  else if tool = "git_diff" then
    let c1 := args.commit1?.getD "HEAD"
    (.ok [("diff", .s (eng.diff rn c1 args.commit2?))], fs)
  else (.error (.unknownTool tool), fs)

/-- The `call_tool` handler: the `create_repository` branch first, then the
common block that resolves `repo_name` through the locator before the
remaining tools are told apart, so that an unknown tool name still reads
`repo_name` and resolves it before the final `Unknown tool` error. -/
def call_tool (eng : Engine) (base ts : String) (fs : FS) (tool : String)
    (args : ToolArgs) : Except CallErr Resp × FS :=
  if tool = "create_repository" then create_repository eng base ts fs args
  else
    match args.repo_name? with
    | none => (.error (.missingArgument "repo_name"), fs)
    | some rn =>
      match check_repository_exists fs rn with
      | .error e => (.error e, fs)
      | .ok ent => run_repo_tool eng fs tool rn ent args

/-- An engine for which every delegated operation succeeds. -/
def engOk : Engine :=
  ⟨fun _ => false, fun _ => true, fun _ _ => true, fun _ _ => true, fun _ _ _ => ""⟩

/-- An engine for which writing `README.md` fails (a write failure after
`mkdir` and `Repo.init`). -/
def engFailWrite : Engine :=
  ⟨fun st => match st with | .writeReadme => true | _ => false,
   fun _ => true, fun _ _ => true, fun _ _ => true, fun _ _ _ => ""⟩

/-- A live repository entry with no files, commits or remotes. -/
def entG : DirEntry := ⟨true, [], [], [], []⟩

/-- A repositories directory holding the single live repository `r`. -/
def fsR : FS := [("r", entG)]

/-! ## Validator lemmas -/

theorem splitOnChar_not_mem {sep : Char} {l : List Char} (h : sep ∉ l) :
    splitOnChar sep l = [l] := by
  induction l with
  | nil => rfl
  | cons c cs ih =>
    have hc : ¬ (c = sep) := by
      intro hh
      exact h (by rw [hh]; exact List.mem_cons_self _ _)
    have hcs : sep ∉ cs := fun hh => h (List.mem_cons_of_mem c hh)
    unfold splitOnChar
    rw [ih hcs]
    simp [hc]

theorem dotdot_of_hasDotDot {s : String} (h : hasDotDotPart s = true)
    (hns : '/' ∉ s.data) : s.data = ['.', '.'] := by
  unfold hasDotDotPart pathParts at h
  rw [splitOnChar_not_mem hns] at h
  rw [List.any_eq_true] at h
  obtain ⟨p, hp, hpq⟩ := h
  rw [beq_iff_eq] at hpq
  subst hpq
  have hmem := (List.mem_filter.mp hp).1
  rw [List.mem_singleton] at hmem
  exact hmem.symm

theorem coreMatch_false_of_mem {c : Char} {l : List Char} (hc : isNameChar c = false)
    (hm : c ∈ l) : coreMatch l = false := by
  cases l with
  | nil => cases hm
  | cons x xs =>
    have hax : isAlnumAscii c = false := by
      revert hc
      unfold isNameChar
      cases isAlnumAscii c <;> simp
    rcases List.mem_cons.mp hm with rfl | hx
    · simp [coreMatch, hax]
    · have hall : xs.all isNameChar = false := by
        apply Bool.eq_false_iff.mpr
        intro hall
        have := (List.all_eq_true.mp hall) c hx
        rw [hc] at this
        exact Bool.noConfusion this
      simp [coreMatch, hall]

theorem coreMatch_mem {l : List Char} (hc : coreMatch l = true) {c : Char}
    (hm : c ∈ l) : isNameChar c = true := by
  by_cases h : isNameChar c = true
  · exact h
  · have := coreMatch_false_of_mem (Bool.eq_false_iff.mpr h) hm
    rw [hc] at this
    exact Bool.noConfusion this

theorem re_match_false_of_mem {c : Char} {s : String} (hc : isNameChar c = false)
    (hn : ¬ (c = '\n')) (hm : c ∈ s.data) : re_match_name s = false := by
  unfold re_match_name
  rw [coreMatch_false_of_mem hc hm, Bool.false_or]
  cases hL : s.data.getLast? with
  | none => simp
  | some cl =>
    by_cases hcl : cl = '\n'
    · subst hcl
      have hne : s.data ≠ [] := by
        intro h0
        rw [h0] at hL
        exact Option.noConfusion hL
      have hsplit := List.dropLast_append_getLast hne
      have hlast : s.data.getLast hne = '\n' := by
        have := List.getLast?_eq_getLast s.data hne
        rw [hL] at this
        exact (Option.some.inj this).symm
      have hmem' : c ∈ s.data.dropLast := by
        rw [← hsplit] at hm
        rcases List.mem_append.mp hm with h1 | h2
        · exact h1
        · rw [List.mem_singleton, hlast] at h2
          exact absurd h2 hn
      rw [coreMatch_false_of_mem hc hmem']
      simp
    · have hb : (some cl == some '\n') = false := by
        cases hb2 : (some cl == some '\n') with
        | false => rfl
        | true => exact absurd (Option.some.inj (eq_of_beq hb2)) hcl
      rw [hb]
      simp

theorem re_match_traversal_false {s : String} (h : path_traversal_check s = true) :
    re_match_name s = false := by
  unfold path_traversal_check at h
  simp only [Bool.or_eq_true] at h
  have slashCase : hasChar s '/' = true → re_match_name s = false := by
    intro h2
    unfold hasChar at h2
    rw [List.any_eq_true] at h2
    obtain ⟨c, hcm, hce⟩ := h2
    rw [beq_iff_eq] at hce
    subst hce
    exact re_match_false_of_mem (by decide) (by decide) hcm
  rcases h with (h1 | h2) | h3
  · by_cases hsl : '/' ∈ s.data
    · exact re_match_false_of_mem (by decide) (by decide) hsl
    · have hsd := dotdot_of_hasDotDot h1 hsl
      unfold re_match_name
      rw [hsd]
      decide
  · exact slashCase h2
  · unfold hasChar at h3
    rw [List.any_eq_true] at h3
    obtain ⟨c, hcm, hce⟩ := h3
    rw [beq_iff_eq] at hce
    subst hce
    exact re_match_false_of_mem (by decide) (by decide) hcm

/-- Claim C1: every string containing a `/`, a `\`, or a `..` path segment is
rejected by `_validate_repo_name` with an `InvalidName`-class or
`PathTraversal` error, never accepted. -/
theorem validator_rejects_traversal (s : String) (h : path_traversal_check s = true) :
    ∃ e, validate_repo_name s = .error e ∧
      (e.isInvalidName = true ∨ e = ErrKind.pathTraversal) := by
  by_cases h0 : s.length = 0
  · exact ⟨.invalidNameEmpty, by simp [validate_repo_name, h0], Or.inl rfl⟩
  · by_cases h1 : 255 < s.length
    · exact ⟨.invalidNameTooLong, by simp [validate_repo_name, h0, h1], Or.inl rfl⟩
    · have h2 : re_match_name s = false := re_match_traversal_false h
      exact ⟨.invalidNamePattern, by simp [validate_repo_name, h0, h1, h2], Or.inl rfl⟩

/-- Witness for C1 at the concrete input `"a/b"`. -/
theorem validator_rejects_traversal_w :
    ∃ e, validate_repo_name "a/b" = .error e ∧
      (e.isInvalidName = true ∨ e = ErrKind.pathTraversal) :=
  validator_rejects_traversal "a/b" (by decide)

set_option maxRecDepth 8000 in
/-- Claim C3: every string that fully matches the accepted pattern, has at
most 255 characters, is not case-insensitively reserved and contains no
forbidden substring is accepted; the 255-character boundary is accepted and
the 256-character one rejected as `InvalidName`. -/
theorem validator_accepts_wellformed :
    (∀ s : String, coreMatch s.data = true → s.length ≤ 255 →
        forbidden_check s = false → reserved_check s = false →
        validate_repo_name s = .ok ()) ∧
    validate_repo_name (String.mk (List.replicate 255 'a')) = .ok () ∧
    validate_repo_name (String.mk (List.replicate 256 'a')) = .error .invalidNameTooLong ∧
    ErrKind.isInvalidName .invalidNameTooLong = true := by
  refine ⟨?_, rfl, rfl, rfl⟩
  intro s hc hlen hforb hres
  have hne : s.data ≠ [] := by
    intro h0
    rw [h0] at hc
    exact Bool.noConfusion hc
  have h0 : ¬ (s.length = 0) := by
    have hl : s.length = s.data.length := rfl
    rw [hl, List.length_eq_zero]
    exact hne
  have h1 : ¬ (255 < s.length) := Nat.not_lt.mpr hlen
  have h2 : re_match_name s = true := by
    unfold re_match_name
    rw [hc]
    rfl
  have hmem : ∀ c ∈ s.data, isNameChar c = true := fun c hcm => coreMatch_mem hc hcm
  have hs1 : hasChar s '/' = false := by
    apply Bool.eq_false_iff.mpr
    intro hh
    unfold hasChar at hh
    rw [List.any_eq_true] at hh
    obtain ⟨c, hcm, hce⟩ := hh
    rw [beq_iff_eq] at hce
    subst hce
    exact absurd (hmem _ hcm) (by decide)
  have hs2 : hasChar s '\\' = false := by
    apply Bool.eq_false_iff.mpr
    intro hh
    unfold hasChar at hh
    rw [List.any_eq_true] at hh
    obtain ⟨c, hcm, hce⟩ := hh
    rw [beq_iff_eq] at hce
    subst hce
    exact absurd (hmem _ hcm) (by decide)
  have hdd : hasDotDotPart s = false := by
    apply Bool.eq_false_iff.mpr
    intro hh
    have hslash : '/' ∉ s.data := fun hm2 => absurd (hmem _ hm2) (by decide)
    have hsd := dotdot_of_hasDotDot hh hslash
    rw [hsd] at hc
    exact absurd hc (by decide)
  have htrav : path_traversal_check s = false := by
    unfold path_traversal_check
    rw [hdd, hs1, hs2]
    rfl
  simp [validate_repo_name, h0, h1, h2, hforb, hres, htrav]

/-- Witness for C3 at the concrete input `"my-repo"`. -/
theorem validator_accepts_wellformed_w : validate_repo_name "my-repo" = .ok () :=
  validator_accepts_wellformed.1 "my-repo" (by decide) (by decide) (by decide) (by decide)

/-- Counterexample to claim C7: `validate("repo/.git")` does not fail with
`ForbiddenPattern`; the pattern check rejects the `/` first, which is an
`InvalidName` error. -/
theorem lock_git_forbidden_cex :
    validate_repo_name "repo/.git" = .error .invalidNamePattern ∧
    ErrKind.invalidNamePattern ≠ ErrKind.forbiddenPattern :=
  ⟨rfl, by decide⟩

/-- Claim C7 as amended: `validate("my.lock")` fails with `ForbiddenPattern`,
but `validate("repo/.git")` fails with the `InvalidName` pattern error,
because the regex check (whose alphabet excludes `/`) runs before the
forbidden-substring check. -/
theorem lock_git_error_kinds :
    validate_repo_name "my.lock" = .error .forbiddenPattern ∧
    validate_repo_name "repo/.git" = .error .invalidNamePattern :=
  ⟨rfl, rfl⟩

/-- Claim C10: the forbidden-substring check is case-sensitive, so `A.GIT`
and `x.LOCK` pass validation, and such a name is then used to build the
repository's filesystem path (the created entry and the reported `path`). -/
theorem forbidden_check_case_sensitive :
    validate_repo_name "A.GIT" = .ok () ∧
    validate_repo_name "x.LOCK" = .ok () ∧
    call_tool engOk "repos" "T" [] "create_repository" (argsName "A.GIT") =
      (.ok (create_resp "repos" "A.GIT" true none),
       [("A.GIT", ⟨true, [("README.md", readme_content "A.GIT" "T")], [],
                   ["Initial commit"], []⟩)]) ∧
    respFind (create_resp "repos" "A.GIT" true none) "path" = some (.s "repos/A.GIT") :=
  ⟨rfl, rfl, rfl, rfl⟩

/-! ## Dispatcher lemmas -/

theorem call_tool_create (eng : Engine) (base ts : String) (fs : FS) (args : ToolArgs) :
    call_tool eng base ts fs "create_repository" args = create_repository eng base ts fs args := by
  unfold call_tool
  rw [if_pos rfl]

theorem fsFind_insert (fs : FS) (nm : String) (ent : DirEntry) :
    fsFind (fsInsert fs nm ent) nm = some ent := by
  unfold fsInsert fsFind
  rw [if_pos rfl]

theorem check_not_found {fs : FS} {rn : String} (hv : validate_repo_name rn = .ok ())
    (hm : repo_missing fs rn = true) :
    check_repository_exists fs rn = .error .repositoryNotFound := by
  unfold check_repository_exists
  rw [hv]
  unfold repo_missing at hm
  cases hf : fsFind fs rn with
  | none => rfl
  | some ent =>
    rw [hf] at hm
    simp only []
    rw [if_neg (by simp at hm; simp [hm])]

theorem pair_err_ne_ok {e : CallErr} {r : Resp} {f g : FS}
    (h : ((Except.error e : Except CallErr Resp), f) = (Except.ok r, g)) : False := by
  injection h with h1 h2
  exact Except.noConfusion h1

theorem pair_ok_inj {r0 resp : Resp} {f0 fs2 : FS}
    (h : ((Except.ok r0 : Except CallErr Resp), f0) = (Except.ok resp, fs2)) :
    resp = r0 ∧ fs2 = f0 := by
  injection h with h1 h2
  injection h1 with h3
  exact ⟨h3.symm, h2.symm⟩

/-- Claim C5: creating a repository whose target path already exists fails
with `AlreadyExists` and performs no filesystem mutation — validation and
the existence check precede any directory creation, and the returned state
is the input state, untouched. -/
theorem create_already_exists_no_mutation (eng : Engine) (base ts : String) (fs : FS)
    (args : ToolArgs) (nm : String) (ent : DirEntry)
    (hn : args.name? = some nm)
    (hv : validate_repo_name nm = .ok ())
    (hf : fsFind fs nm = some ent) :
    call_tool eng base ts fs "create_repository" args = (.error .alreadyExists, fs) := by
  rw [call_tool_create]
  unfold create_repository
  rw [hn]
  simp only [hv, hf]

/-- Witness for C5: creating over the pre-existing repository `r`. -/
theorem create_already_exists_no_mutation_w :
    call_tool engOk "repos" "T" fsR "create_repository" (argsName "r") =
      (.error .alreadyExists, fsR) :=
  create_already_exists_no_mutation engOk "repos" "T" fsR (argsName "r") "r" entG rfl rfl rfl

/-- Claim C6: each of the five git tools, invoked with a `repo_name` that
does not resolve to an existing repository (the path is missing or lacks the
`.git` marker), fails with `RepositoryNotFound` regardless of the other
arguments, with the state unchanged; resolution happens before any other
argument is read. -/
theorem missing_repo_uniform_not_found :
    ∀ tool ∈ (["git_add", "git_commit", "git_pull", "git_push", "git_diff"] : List String),
    ∀ (eng : Engine) (base ts : String) (fs : FS) (args : ToolArgs) (rn : String),
      args.repo_name? = some rn →
      validate_repo_name rn = .ok () →
      repo_missing fs rn = true →
      call_tool eng base ts fs tool args = (.error .repositoryNotFound, fs) := by
  intro tool ht eng base ts fs args rn hrn hv hm
  have hchk := check_not_found hv hm
  simp only [List.mem_cons, List.mem_singleton, List.not_mem_nil, or_false] at ht
  rcases ht with rfl | rfl | rfl | rfl | rfl <;>
    (unfold call_tool; rw [if_neg (by decide)]; simp only [hrn, hchk])

/-- Witness for C6: `git_commit` against the absent repository `nope`. -/
theorem missing_repo_uniform_not_found_w :
    call_tool engOk "repos" "T" [] "git_commit" (argsRepo "nope") =
      (.error .repositoryNotFound, []) :=
  missing_repo_uniform_not_found "git_commit" (by decide) engOk "repos" "T" []
    (argsRepo "nope") "nope" rfl rfl rfl

/-- Counterexample to claim C2: with a write failure after `mkdir` and
`Repo.init`, `create_repository` surfaces an error while the partially
created directory `demo` is still present in the final state — the source
has no cleanup-on-failure. -/
theorem create_failure_leaves_directory_cex :
    exceptOk (call_tool engFailWrite "repos" "T" [] "create_repository" (argsName "demo")).1
      = false ∧
    fsFind (call_tool engFailWrite "repos" "T" [] "create_repository" (argsName "demo")).2
      "demo" = some ⟨true, [], [], [], []⟩ :=
  ⟨rfl, rfl⟩

/-- Claim C2 as amended: when `create_repository` fails after the target
directory was created, the directory is NOT deleted — the error is surfaced
with the partially created directory still present at the target path. -/
theorem create_failure_no_cleanup (eng : Engine) (base ts : String) (fs : FS)
    (args : ToolArgs) (nm : String)
    (hn : args.name? = some nm)
    (hv : validate_repo_name nm = .ok ())
    (hf : fsFind fs nm = none)
    (hmk : eng.failAt .mkdirStep = false)
    (he : exceptOk (call_tool eng base ts fs "create_repository" args).1 = false) :
    fsFind (call_tool eng base ts fs "create_repository" args).2 nm ≠ none := by
  rw [call_tool_create] at he ⊢
  unfold create_repository create_finish at he ⊢
  rw [hn] at he ⊢
  cases h2 : eng.failAt .gitInitStep <;>
  cases h3 : eng.failAt .writeReadme <;>
  cases h4 : eng.failAt .addReadme <;>
  cases h5 : eng.failAt .commitReadme <;>
  cases h6 : eng.failAt .addRemote <;>
  cases hic : args.init_commit?.getD true <;>
  cases hru : args.remote_url? <;>
  simp_all [fsInsert, fsFind, exceptOk]

/-- Witness for the amended C2: the write-failure engine on `demo`. -/
theorem create_failure_no_cleanup_w :
    fsFind (call_tool engFailWrite "repos" "T" [] "create_repository" (argsName "demo")).2
      "demo" ≠ none :=
  create_failure_no_cleanup engFailWrite "repos" "T" [] (argsName "demo") "demo"
    rfl rfl rfl rfl rfl

/-- Counterexample to claim C9: an unknown tool name with an argument bag
whose `repo_name` does not resolve fails with `RepositoryNotFound`, not with
the `UnknownTool` kind — the common repository-resolution block runs before
the unknown-tool check. -/
theorem unknown_tool_not_reported_cex :
    (call_tool engOk "repos" "T" [] "frobnicate" (argsRepo "nope")).1 =
      .error .repositoryNotFound ∧
    isUnknownToolErr CallErr.repositoryNotFound = false :=
  ⟨rfl, rfl⟩

/-- The locator's failures are the validation and not-found errors, never
the `UnknownTool` kind. -/
theorem check_err_not_unknown {fs : FS} {rn : String} {e : CallErr}
    (h : check_repository_exists fs rn = .error e) : isUnknownToolErr e = false := by
  unfold check_repository_exists at h
  cases hv : validate_repo_name rn with
  | error e2 =>
    simp only [hv] at h
    injection h with h1
    rw [← h1]
    rfl
  | ok u =>
    simp only [hv] at h
    cases hf : fsFind fs rn with
    | none =>
      simp only [hf] at h
      injection h with h1
      rw [← h1]
      rfl
    | some ent =>
      simp only [hf] at h
      by_cases hg : ent.has_git = true
      · rw [if_pos hg] at h
        exact Except.noConfusion h
      · rw [if_neg hg] at h
        injection h with h1
        rw [← h1]
        rfl

/-- Claim C9 as amended: a tool name outside the fixed set always fails, but
the failure is `UnknownTool` exactly when the argument bag carries a
`repo_name` that resolves to an existing repository; when `repo_name` is
absent the reported failure is the missing-argument error, and when it does
not resolve the reported failure is the locator's resolution error, which is
never of the `UnknownTool` kind. -/
theorem unknown_tool_dispatch :
    ∀ tool : String,
      tool ∉ (["create_repository", "git_add", "git_commit", "git_pull", "git_push",
               "git_diff"] : List String) →
      ∀ (eng : Engine) (base ts : String) (fs : FS) (args : ToolArgs),
        exceptOk (call_tool eng base ts fs tool args).1 = false ∧
        (args.repo_name? = none →
          call_tool eng base ts fs tool args = (.error (.missingArgument "repo_name"), fs)) ∧
        (∀ (rn : String) (e : CallErr), args.repo_name? = some rn →
          check_repository_exists fs rn = .error e →
          call_tool eng base ts fs tool args = (.error e, fs) ∧
          isUnknownToolErr e = false) ∧
        (∀ (rn : String) (ent : DirEntry), args.repo_name? = some rn →
          check_repository_exists fs rn = .ok ent →
          call_tool eng base ts fs tool args = (.error (.unknownTool tool), fs)) := by
  intro tool ht eng base ts fs args
  simp only [List.mem_cons, List.mem_singleton, List.not_mem_nil, or_false, not_or] at ht
  obtain ⟨ht1, ht2, ht3, ht4, ht5, ht6⟩ := ht
  refine ⟨?_, ?_, ?_, ?_⟩
  · unfold call_tool
    rw [if_neg ht1]
    cases hrn : args.repo_name? with
    | none => rfl
    | some rn =>
      simp only []
      cases hchk : check_repository_exists fs rn with
      | error e => simp only [hchk]; rfl
      | ok ent =>
        simp only [hchk]
        unfold run_repo_tool
        rw [if_neg ht2, if_neg ht3, if_neg ht4, if_neg ht5, if_neg ht6]
        rfl
  · intro hrn
    unfold call_tool
    rw [if_neg ht1]
    simp only [hrn]
  · intro rn e hrn hchk
    refine ⟨?_, check_err_not_unknown hchk⟩
    unfold call_tool
    rw [if_neg ht1]
    simp only [hrn, hchk]
  · intro rn ent hrn hchk
    unfold call_tool
    rw [if_neg ht1]
    simp only [hrn, hchk]
    unfold run_repo_tool
    rw [if_neg ht2, if_neg ht3, if_neg ht4, if_neg ht5, if_neg ht6]

/-- Witness for the amended C9: the unknown tool `frobnicate` with a
resolving `repo_name` (UnknownTool), with `repo_name` absent
(missing-argument error), and with an unresolvable `repo_name` (the
locator's RepositoryNotFound, not an UnknownTool error). -/
theorem unknown_tool_dispatch_w :
    call_tool engOk "repos" "T" fsR "frobnicate" (argsRepo "r") =
      (.error (.unknownTool "frobnicate"), fsR) ∧
    call_tool engOk "repos" "T" fsR "frobnicate" argsEmpty =
      (.error (.missingArgument "repo_name"), fsR) ∧
    (call_tool engOk "repos" "T" fsR "frobnicate" (argsRepo "nope") =
        (.error .repositoryNotFound, fsR) ∧
      isUnknownToolErr CallErr.repositoryNotFound = false) :=
  ⟨(unknown_tool_dispatch "frobnicate" (by decide) engOk "repos" "T" fsR
      (argsRepo "r")).2.2.2 "r" entG rfl rfl,
   (unknown_tool_dispatch "frobnicate" (by decide) engOk "repos" "T" fsR
      argsEmpty).2.1 rfl,
   (unknown_tool_dispatch "frobnicate" (by decide) engOk "repos" "T" fsR
      (argsRepo "nope")).2.2.1 "nope" CallErr.repositoryNotFound rfl rfl⟩

/-- Counterexample to claim C8: a successful `git_diff` invocation returns
only `{"diff": ...}` — its response has no `status` (and no `message`)
field. -/
theorem diff_resp_no_status_cex :
    (call_tool engOk "b" "T" fsR "git_diff" (argsRepo "r")).1 = .ok [("diff", .s "")] ∧
    respFind [("diff", JVal.s "")] "status" = none ∧
    respFind [("diff", JVal.s "")] "message" = none :=
  ⟨rfl, rfl, rfl⟩

/-- Claim C8 as amended: every successful invocation of `create_repository`,
`git_add`, `git_commit`, `git_pull` and `git_push` returns an object with
`status = "success"`, a `message`, and the operation-specific fields
(`path` for create, `commit_hash` for commit); a successful `git_diff`
instead returns only the `diff` field, with no `status` or `message`. -/
theorem success_resp_envelope :
    (∀ (eng : Engine) (base ts : String) (fs : FS) (args : ToolArgs) (resp : Resp) (fs2 : FS),
        call_tool eng base ts fs "create_repository" args = (.ok resp, fs2) →
        respFind resp "status" = some (.s "success") ∧
        (∃ m, respFind resp "message" = some (.s m)) ∧
        (∃ p, respFind resp "path" = some (.s p))) ∧
    (∀ (eng : Engine) (base ts : String) (fs : FS) (args : ToolArgs) (resp : Resp) (fs2 : FS),
        call_tool eng base ts fs "git_add" args = (.ok resp, fs2) →
        respFind resp "status" = some (.s "success") ∧
        (∃ m, respFind resp "message" = some (.s m))) ∧
    (∀ (eng : Engine) (base ts : String) (fs : FS) (args : ToolArgs) (resp : Resp) (fs2 : FS),
        call_tool eng base ts fs "git_commit" args = (.ok resp, fs2) →
        respFind resp "status" = some (.s "success") ∧
        (∃ m, respFind resp "message" = some (.s m)) ∧
        (∃ c, respFind resp "commit_hash" = some (.s c))) ∧
    (∀ (eng : Engine) (base ts : String) (fs : FS) (args : ToolArgs) (resp : Resp) (fs2 : FS),
        call_tool eng base ts fs "git_pull" args = (.ok resp, fs2) →
        respFind resp "status" = some (.s "success") ∧
        (∃ m, respFind resp "message" = some (.s m))) ∧
    (∀ (eng : Engine) (base ts : String) (fs : FS) (args : ToolArgs) (resp : Resp) (fs2 : FS),
        call_tool eng base ts fs "git_push" args = (.ok resp, fs2) →
        respFind resp "status" = some (.s "success") ∧
        (∃ m, respFind resp "message" = some (.s m))) ∧
    (∀ (eng : Engine) (base ts : String) (fs : FS) (args : ToolArgs) (resp : Resp) (fs2 : FS),
        call_tool eng base ts fs "git_diff" args = (.ok resp, fs2) →
        (∃ d, resp = [("diff", .s d)]) ∧
        respFind resp "status" = none ∧ respFind resp "message" = none) := by
  refine ⟨?_, ?_, ?_, ?_, ?_, ?_⟩
  · intro eng base ts fs args resp fs2 h
    rw [call_tool_create] at h
    unfold create_repository create_finish at h
    repeat' first
      | split at h
      | dsimp only [] at h
    all_goals first
      | exact (pair_err_ne_ok h).elim
      | exact absurd (by assumption) (by decide)
      | exact absurd rfl (by assumption)
      | (obtain ⟨h1, _⟩ := pair_ok_inj h
         subst h1
         exact ⟨rfl, ⟨_, rfl⟩, ⟨_, rfl⟩⟩)
  · intro eng base ts fs args resp fs2 h
    unfold call_tool run_repo_tool at h
    rw [if_neg (by decide)] at h
    simp only [String.reduceEq, reduceIte] at h
    repeat' first
      | split at h
      | dsimp only [] at h
    all_goals first
      | exact (pair_err_ne_ok h).elim
      | exact absurd (by assumption) (by decide)
      | exact absurd rfl (by assumption)
      | (obtain ⟨h1, _⟩ := pair_ok_inj h
         subst h1
         exact ⟨rfl, ⟨_, rfl⟩⟩)
  · intro eng base ts fs args resp fs2 h
    unfold call_tool run_repo_tool at h
    rw [if_neg (by decide)] at h
    simp only [String.reduceEq, reduceIte] at h
    repeat' first
      | split at h
      | dsimp only [] at h
    all_goals first
      | exact (pair_err_ne_ok h).elim
      | exact absurd (by assumption) (by decide)
      | exact absurd rfl (by assumption)
      | (obtain ⟨h1, _⟩ := pair_ok_inj h
         subst h1
         exact ⟨rfl, ⟨_, rfl⟩, ⟨_, rfl⟩⟩)
  · intro eng base ts fs args resp fs2 h
    unfold call_tool run_repo_tool at h
    rw [if_neg (by decide)] at h
    simp only [String.reduceEq, reduceIte] at h
    repeat' first
      | split at h
      | dsimp only [] at h
    all_goals first
      | exact (pair_err_ne_ok h).elim
      | exact absurd (by assumption) (by decide)
      | exact absurd rfl (by assumption)
      | (obtain ⟨h1, _⟩ := pair_ok_inj h
         subst h1
         exact ⟨rfl, ⟨_, rfl⟩⟩)
  · intro eng base ts fs args resp fs2 h
    unfold call_tool run_repo_tool at h
    rw [if_neg (by decide)] at h
    simp only [String.reduceEq, reduceIte] at h
    repeat' first
      | split at h
      | dsimp only [] at h
    all_goals first
      | exact (pair_err_ne_ok h).elim
      | exact absurd (by assumption) (by decide)
      | exact absurd rfl (by assumption)
      | (obtain ⟨h1, _⟩ := pair_ok_inj h
         subst h1
         exact ⟨rfl, ⟨_, rfl⟩⟩)
  · intro eng base ts fs args resp fs2 h
    unfold call_tool run_repo_tool at h
    rw [if_neg (by decide)] at h
    simp only [String.reduceEq, reduceIte] at h
    repeat' first
      | split at h
      | dsimp only [] at h
    all_goals first
      | exact (pair_err_ne_ok h).elim
      | exact absurd (by assumption) (by decide)
      | exact absurd rfl (by assumption)
      | (obtain ⟨h1, _⟩ := pair_ok_inj h
         subst h1
         exact ⟨⟨_, rfl⟩, rfl, rfl⟩)

/-- Witness for the amended C8 at a concrete successful `git_add`. -/
theorem success_resp_envelope_w :
    respFind [("status", JVal.s "success"),
              ("message", JVal.s "Added files to staging area: f"),
              ("repo", JVal.s "r")] "status" = some (JVal.s "success") ∧
    (∃ m, respFind [("status", JVal.s "success"),
              ("message", JVal.s "Added files to staging area: f"),
              ("repo", JVal.s "r")] "message" = some (JVal.s m)) :=
  success_resp_envelope.2.1 engOk "b" "T" fsR
    ⟨none, none, none, some "r", some ["f"], none, none, none, none, none⟩
    [("status", JVal.s "success"),
     ("message", JVal.s "Added files to staging area: f"),
     ("repo", JVal.s "r")]
    [("r", ⟨true, [], ["f"], [], []⟩)] rfl
